import Mathlib

/-!
Shallow embedding of the rhythm-sequencing core of a TR-909 drum-machine
emulator, together with proofs of the specified properties.

Every definition is translated from the JavaScript engine source
(`src/unnamed/part_002`, with UI dispatch context from `part_001`):
pattern-memory addressing, the hi-hat shared-channel encoding, the
look-ahead scheduler's swing/flam arithmetic and terminal-stop logic,
the pattern-window edit operations, the playback-queue operations, the
Continue command, the sparse snapshot serialize/restore pair, and
`clearPattern`'s reset side effects.  Machine timers, Web Audio nodes
and the DOM are outside the embedded fragment; times are modelled as
exact rationals and memory as total functions on indices.
-/

set_option maxRecDepth 8000

namespace TR909

/-! ## Pattern-memory addressing (`#memoryCodes` / `#getPatternMemoryLocation`) -/

/-- Bank half of a selector code (`B1`/`B2`). -/
inductive Bank | B1 | B2
deriving DecidableEq, Fintype

/-- Track part of a selector code (`T1`..`T4`). -/
inductive Track | T1 | T2 | T3 | T4
deriving DecidableEq, Fintype

/-- Pattern-group part of a selector code (`PG1`..`PG3`). -/
inductive PatternGroup | PG1 | PG2 | PG3
deriving DecidableEq, Fintype

/-- `#memoryCodes` offsets for banks: `B1: 0, B2: 192`. -/
def bankCode : Bank → Nat
  | .B1 => 0 | .B2 => 192

/-- `#memoryCodes` offsets for tracks: `T1: 0, T2: 48, T3: 96, T4: 144`. -/
def trackCode : Track → Nat
  | .T1 => 0 | .T2 => 48 | .T3 => 96 | .T4 => 144

/-- `#memoryCodes` offsets for pattern groups: `PG1: 0, PG2: 16, PG3: 32`. -/
def groupCode : PatternGroup → Nat
  | .PG1 => 0 | .PG2 => 16 | .PG3 => 32

/-- A `SELECTOR_CODE`: `[bank, track, pattern group, pattern number]`. -/
structure SelectorCode where
  bank : Bank
  track : Track
  group : PatternGroup
  number : Fin 16
deriving DecidableEq, Fintype

/-- `#getPatternMemoryLocation`: sum of the three offsets plus the pattern
number. -/
def getPatternMemoryLocation (c : SelectorCode) : Nat :=
  bankCode c.bank + trackCode c.track + groupCode c.group + c.number.val

/-- Mathematical inverse of the addressing function (the source constructs
codes only in the forward direction): bank from the 192-block. -/
def bankOfIndex (i : Nat) : Bank := if i / 192 = 0 then .B1 else .B2

/-- Inverse of the addressing function: track from the 48-block. -/
def trackOfIndex (i : Nat) : Track :=
  match (i % 192) / 48 with
  | 0 => .T1 | 1 => .T2 | 2 => .T3 | _ => .T4

/-- Inverse of the addressing function: group from the 16-block. -/
def groupOfIndex (i : Nat) : PatternGroup :=
  match (i % 48) / 16 with
  | 0 => .PG1 | 1 => .PG2 | _ => .PG3

/-- Inverse of `getPatternMemoryLocation`, mapping a memory index back to a
selector code. -/
def codeOfIndex (i : Nat) : SelectorCode :=
  ⟨bankOfIndex i, trackOfIndex i, groupOfIndex i,
    ⟨i % 16, Nat.mod_lt _ (by norm_num)⟩⟩

/-! ## Scheduler interval arithmetic (`#scheduler`) -/

/-- `60.0 / (tempo * grid)`: the nominal step interval in seconds. -/
def secondsPerBeat (tempo grid : ℚ) : ℚ := 60 / (tempo * grid)

/-- The swing branch of `#scheduler`: even beat counters get
`secondsPerBeat + shuffleFactor*secondsPerBeat`, odd ones get
`secondsPerBeat - shuffleFactor*secondsPerBeat`. -/
def shuffledInterval (beat : Nat) (s i : ℚ) : ℚ :=
  if beat % 2 = 0 then i + s * i else i - s * i

/-- `this.flammedTime = this.nextNoteTime - (FLAM+0.21)*secondsPerBeat`:
the flam pre-onset for a step targeted at time `T` with interval `i` and
flam factor `f`. -/
def flammedTime (T i f : ℚ) : ℚ := T - (f + 21/100) * i

/-- The flam factor written by `consumeMk` for MainKey `e` (`elementId > 7`
branch): `(elementId-8)/this.#flamSpread` with `#flamSpread = 20`. -/
def flamFactorOfKey (e : Nat) : ℚ := ((e : ℚ) - 8) / 20

/-! ## The shared hi-hat channel
(`getUpdatedMemorySlot`, STEP branch, and the `#playMachine` hi-hat switch) -/

/-- `getUpdatedMemorySlot` in STEP mode:
`stepINST==='HHO' ? (state<3 ? 3 : state + 3)%9 : (state + 1)%3`. -/
def getUpdatedMemorySlot (isHHO : Bool) (state : Nat) : Nat :=
  if isHHO then (if state < 3 then 3 else state + 3) % 9 else (state + 1) % 3

/-- The `#playMachine` hi-hat decode switch: step value to
(is-open-hat, accent weight); values outside `{1,2,3,6}` select no sound. -/
def decodeHat (v : Nat) : Option (Bool × ℚ) :=
  match v with
  | 1 => some (false, 6/10)
  | 2 => some (false, 8/10)
  | 3 => some (true, 6/10)
  | 6 => some (true, 8/10)
  | _ => none

/-! ## Pattern records and the sparse snapshot
(`#generateEmptyPattern`, `#checkPatternAndInstSTEP`, `#loadPatternData`) -/

/-- One pattern record: 11 instrument step rows of 16 slots (indices 0–10),
then scale (11), BASE (12), shuffle factor (13), flam factor (14), the
per-instrument flam-enable row (15), first beat (16) and invert (17). -/
structure PatternRec where
  insts : List (List Nat)
  scale : Nat
  base : Nat
  shuffle : ℚ
  flam : ℚ
  flammed : List Nat
  firstStep : Nat
  invert : Nat
deriving DecidableEq

/-- `#generateEmptyPattern`: all instrument rows zero, scale 1, BASE 16,
shuffle/flam 0, flam-enable row zero, first beat 0, invert 0. -/
def generateEmptyPattern : PatternRec :=
  { insts := List.replicate 11 (List.replicate 16 0)
    scale := 1
    base := 16
    shuffle := 0
    flam := 0
    flammed := List.replicate 11 0
    firstStep := 0
    invert := 0 }

/-- The inclusion test of `#checkPatternAndInstSTEP`: a pattern enters the
preset collection iff its first/last beat differ from the defaults
(`pattern[12] < 16 || pattern[16] > 0`) or some instrument row has a
non-zero slot. -/
def patternIncluded (p : PatternRec) : Bool :=
  decide (p.base < 16) || decide (0 < p.firstStep) ||
    p.insts.any (fun row => row.any (fun v => v != 0))

/-- `#checkPatternAndInstSTEP` run over the whole memory (the source scans
one 16-pattern group per call and accumulates into
`#collectPatternsForPreset`; over all 24 groups this is exactly the filter
below): the sparse snapshot keyed by memory index. -/
def collectPatternsForPreset (mem : Nat → PatternRec) : List (Nat × PatternRec) :=
  ((List.range 384).filter (fun i => patternIncluded (mem i))).map (fun i => (i, mem i))

/-- `#setMemory`/`#loadPatternData`: reset the whole memory to empty
patterns, then overwrite each index present in the snapshot with its
stored record. -/
def loadPatternData (snapshot : List (Nat × PatternRec)) : Nat → PatternRec :=
  snapshot.foldl (fun m kv => Function.update m kv.1 kv.2) (fun _ => generateEmptyPattern)

/-! ## Engine live state, `#resetBaseScaleOthers` and `clearPattern` -/

/-- The engine's live scheduler fields touched by `#resetBaseScaleOthers`,
together with the pattern memory. -/
structure EngineState where
  mem : Nat → PatternRec
  GLOBAL_SCALE : Nat
  shuffleFactor : ℚ
  swingFactor : ℚ
  flamFactor : ℚ
  flamSpread : ℚ
  flammedTime : ℚ
  BASE : Nat
  grid : Nat
  firstBeat : Nat
  invert : Nat

/-- `#resetBaseScaleOthers`: scale 1, shuffle 0, swing 31, flam 0,
flam spread 20, flammed time 0, BASE 16, grid 4, first beat 0, invert 0. -/
def resetBaseScaleOthers (s : EngineState) : EngineState :=
  { s with
    GLOBAL_SCALE := 1
    shuffleFactor := 0
    swingFactor := 31
    flamFactor := 0
    flamSpread := 20
    flammedTime := 0
    BASE := 16
    grid := 4
    firstBeat := 0
    invert := 0 }

/-- `clearPattern` (the `bypassAlert` path): zero the 11 instrument rows of
the record at `patternIdx`, call `#resetBaseScaleOthers`, then write the
record's scalar slots 11–14, 16, 17 from the freshly reset live values and
zero its flam-enable row. -/
def clearPattern (s : EngineState) (patternIdx : Nat) : EngineState :=
  let s1 := resetBaseScaleOthers s
  { s1 with
    mem := Function.update s1.mem patternIdx
      { insts := List.replicate 11 (List.replicate 16 0)
        scale := s1.GLOBAL_SCALE
        base := s1.BASE
        shuffle := s1.shuffleFactor
        flam := s1.flamFactor
        flammed := List.replicate 11 0
        firstStep := s1.firstBeat
        invert := s1.invert } }

/-! ## Pattern-window edits (`consumeMk`, LAST STEP branch) -/

/-- The live window fields and the current record's window slots, as touched
by the LAST STEP branch of `consumeMk`.  (`recFirstStep`/`recBASE` are the
current pattern record's slots 16 and 12.) -/
structure EditState where
  firstBeat : Nat
  BASE : Nat
  trackWrite : Bool
  recFirstStep : Nat
  recBASE : Nat
deriving DecidableEq

/-- The Alt-key sub-branch (`WRITE FIRST BEAT`): refused as a no-op when
`elementId >= this.BASE`; otherwise sets `this.firstBeat = elementId` and
writes record slot 16. -/
def consumeMkFirstBeat (s : EditState) (elementId : Nat) : EditState :=
  if s.BASE ≤ elementId then s
  else { s with firstBeat := elementId, recFirstStep := elementId }

/-- The plain sub-branch (`WRITE LAST BEAT`): refused as a no-op when
`elementId < this.firstBeat`; otherwise sets `this.BASE = elementId+1` and,
when `TRACK_WRITE` is on, writes record slot 12.  (The branch is only
reachable with `TRACK_WRITE` on: `#LAST_STEP` can only be switched on via
the SHIFT table, which `consumeLedKey` dispatches only when `TRACK_WRITE`
holds, and `ensureSHIFTFallsBackClean` clears `#LAST_STEP` whenever the
SHIFT key toggles `TRACK_WRITE`.) -/
def consumeMkLastStep (s : EditState) (elementId : Nat) : EditState :=
  if elementId < s.firstBeat then s
  else
    { s with
      BASE := elementId + 1
      recBASE := if s.trackWrite then elementId + 1 else s.recBASE }

/-- The pattern-window invariant `0 ≤ firstStep < BASE ≤ 16` for the live
fields and the record slots, with the record in sync with the live window
(re-established by `#updateScaleBase` on every pattern change). -/
def windowInv (s : EditState) : Prop :=
  s.firstBeat < s.BASE ∧ s.BASE ≤ 16 ∧
    s.recFirstStep = s.firstBeat ∧ s.recBASE = s.BASE

/-! ## Playback queue (`consumeMk` queue branch, `#pastePatterns`,
`#deletePattern`) -/

/-- The queue-table append branch of `consumeMk`: push a copy of the
current selector code (with the clicked pattern number) only while the
queue holds fewer than 120 entries. -/
def appendQueue (q : List SelectorCode) (code : SelectorCode) (e : Fin 16) :
    List SelectorCode :=
  if q.length < 120 then q ++ [{ code with number := e }] else q

/-- `#pastePatterns`: writes the copy buffer into queue slots
`cursor+1 … stopIdx-1` with `stopIdx = min (bufLen + cursor + 1) 120`,
overwriting existing entries and extending the queue as needed (an empty
buffer fails the shape validation and is a no-op, as is TRACK_WRITE mode). -/
def pastePatterns (trackWrite : Bool) (q : List SelectorCode) (cursor : Nat)
    (buf : List SelectorCode) : List SelectorCode :=
  if buf.length = 0 then q
  else if trackWrite then q
  else
    let stopIdx := min (buf.length + cursor + 1) 120
    q.take (cursor + 1) ++ buf.take (stopIdx - (cursor + 1)) ++ q.drop stopIdx

/-- `#deletePattern`: with more than one entry and a valid cursor, shift the
tail down over the cursor slot and pop the last entry, stepping the cursor
back if it now points past the end; deleting the single remaining entry
(or an out-of-range slot) is rejected. -/
def deletePattern (q : List SelectorCode) (cursor : Nat) :
    List SelectorCode × Nat :=
  if q.length ≤ 1 ∨ q.length ≤ cursor then (q, cursor)
  else
    let q2 := q.eraseIdx cursor
    (q2, if cursor < q2.length then cursor else cursor - 1)

/-- The queue-capacity invariant: never empty, never beyond 120 entries. -/
def queueInv (q : List SelectorCode) : Prop :=
  1 ≤ q.length ∧ q.length ≤ 120

/-! ## Beat counter movement and Continue
(`#moveBeatRunner`, `#moveBeatRunnerBackward`, `#createPlaybackTable` CONT) -/

/-- The counter update of `#moveBeatRunner`:
`(beatRunnerCounter + 1) % BASE`. -/
def moveBeatRunnerCounter (beat base : Int) : Int := (beat + 1) % base

/-- The counter update of `#moveBeatRunnerBackward`:
`(BASE + beatRunnerCounter - 1) % BASE`. -/
def moveBeatRunnerBackwardCounter (beat base : Int) : Int :=
  (base + beat - 1) % base

/-- The CONT handler's beat-counter logic: when the machine was reloaded
(`!this.nextNoteTime`) reinitialise like START; then clamp with
`if (counter < firstBeat || counter > BASE)` to
`!invert ? firstBeat-1 : BASE`. -/
def contBeatRunner (retained firstBeat base : Int) (invert : Bool)
    (timeReset : Bool) : Int :=
  let b := if timeReset then (if invert then base else firstBeat - 1)
           else retained
  if b < firstBeat ∨ base < b then (if invert then base else firstBeat - 1)
  else b

/-! ## The scheduler state machine
(`#scheduler`, `#moveToNextPattern`, `#moveBeatRunner`,
`#moveBeatRunnerBackward`, START) -/

/-- The scheduler state that the `#scheduler` loop reads and writes.
`mem` maps a pattern address (memory index) to its record's live-relevant
pair (BASE, firstStep); `queue` holds pattern addresses; `events` logs each
dispatched `#scheduleNote` call as (queue cursor, beat number).  Times are
irrelevant to the stop logic and are not modelled. -/
structure SchedState where
  mem : Nat → Int × Int
  queue : List Nat
  patternNumber : Nat
  beat : Int
  base : Int
  firstBeat : Int
  invert : Bool
  cycle : Bool
  trackWrite : Bool
  isBankTable : Bool
  isQueueTable : Bool
  running : Bool
  events : List (Nat × Int)

/-- The terminal edge `!this.invert ? this.BASE-1 : this.firstBeat`. -/
def terminalEdge (invert : Bool) (base firstBeat : Int) : Int :=
  if invert then firstBeat else base - 1

/-- `#moveToNextPattern`: when the pre-increment beat sits at the terminal
edge, reset the cursor to 0 if the current entry was deleted, else advance
it `(n+1) % length` unless an edit lock (`TRACK_WRITE` without a bank or
queue table) pins it; then `changePattern`/`#updateScaleBase` reload BASE
and firstBeat from the (possibly new) current record. -/
def moveToNextPattern (s : SchedState) : SchedState :=
  if s.beat = terminalEdge s.invert s.base s.firstBeat then
    let pn :=
      if s.queue.length ≤ s.patternNumber then 0
      else if !s.trackWrite || s.isBankTable || s.isQueueTable then
        (s.patternNumber + 1) % s.queue.length
      else s.patternNumber
    let r := s.mem (s.queue.getD pn 0)
    { s with patternNumber := pn, base := r.1, firstBeat := r.2 }
  else s

/-- `#moveBeatRunner`: reload firstBeat from the current record, resolve
the pattern transition, then step the counter `(beat + 1) % BASE`. -/
def moveBeatRunner (s : SchedState) : SchedState :=
  let s1 := { s with firstBeat := (s.mem (s.queue.getD s.patternNumber 0)).2 }
  let s2 := moveToNextPattern s1
  { s2 with beat := moveBeatRunnerCounter s2.beat s2.base }

/-- `#moveBeatRunnerBackward`: as `#moveBeatRunner` with the counter
stepped `(BASE + beat - 1) % BASE`. -/
def moveBeatRunnerBackward (s : SchedState) : SchedState :=
  let s1 := { s with firstBeat := (s.mem (s.queue.getD s.patternNumber 0)).2 }
  let s2 := moveToNextPattern s1
  { s2 with beat := moveBeatRunnerBackwardCounter s2.beat s2.base }

/-- One iteration of the `#scheduler` while-loop: move the beat counter in
the active direction; if the cursor is at the last queue entry, Cycle is
off and the new beat sits at the terminal edge, dispatch that final step
and stop (`handleClickMk('STOP')`); otherwise dispatch the step and
continue. -/
def schedulerStep (s : SchedState) : SchedState :=
  if s.running then
    let m := if s.invert then moveBeatRunnerBackward s else moveBeatRunner s
    if m.patternNumber = m.queue.length - 1 ∧ m.cycle = false ∧
        m.beat = terminalEdge m.invert m.base m.firstBeat then
      { m with events := m.events ++ [(m.patternNumber, m.beat)],
               running := false }
    else
      { m with events := m.events ++ [(m.patternNumber, m.beat)] }
  else s

/-- Iterate `schedulerStep`. -/
def runScheduler : Nat → SchedState → SchedState
  | 0, s => s
  | n + 1, s => runScheduler n (schedulerStep s)

/-- The START handler's initialisation:
`beatRunnerCounter = !invert ? firstBeat-1 : BASE`, then the loop runs. -/
def startScheduler (s : SchedState) : SchedState :=
  { s with beat := if s.invert then s.base else s.firstBeat - 1,
           running := true }

/-- A stopped engine holding a 2-pattern queue, each pattern with BASE 16
and firstStep 0, Cycle off, playing forward. -/
def twoPatternState : SchedState :=
  { mem := fun _ => (16, 0)
    queue := [7, 8]
    patternNumber := 0
    beat := 0
    base := 16
    firstBeat := 0
    invert := false
    cycle := false
    trackWrite := false
    isBankTable := false
    isQueueTable := false
    running := false
    events := [] }

/-- The expected dispatch log for `twoPatternState`: steps 0–15 of queue
entry 0 then steps 0–15 of queue entry 1, each exactly once. -/
def twoPatternTrace : List (Nat × Int) :=
  (List.range 16).map (fun k => (0, (k : Int))) ++
    (List.range 16).map (fun k => (1, (k : Int)))

/-- `twoPatternState` one dispatch before the terminal stop: cursor on the
last queue entry, beat 14. -/
def nearStopState : SchedState :=
  { twoPatternState with patternNumber := 1, beat := 14, running := true }

/-! ## Theorems for claims C1, C2, C4, C5 -/

/-- **C1.** For every valid pattern address the memory-index function
(bank offset 0/192 + track offset 0/48/96/144 + group offset 0/16/32 +
pattern number) returns an index in `[0, 384)`; the mapping is injective
over the 384 valid tuples, hence a bijection onto `[0, 384)` whose
round-trip index→tuple→index is the identity. -/
theorem addressing_bijection :
    (∀ c, getPatternMemoryLocation c < 384) ∧
    (∀ c, codeOfIndex (getPatternMemoryLocation c) = c) ∧
    (∀ i, i < 384 → getPatternMemoryLocation (codeOfIndex i) = i) ∧
    Function.Injective getPatternMemoryLocation := by
  have h1 : ∀ c, codeOfIndex (getPatternMemoryLocation c) = c := by decide
  refine ⟨by decide, h1, by decide, ?_⟩
  intro a b h
  have := h1 a
  rw [h, h1 b] at this
  exact this.symm

/-- Witness for C1: the round-trip at concrete index 300, via the theorem. -/
theorem addressing_bijection_witness :
    getPatternMemoryLocation (codeOfIndex 300) = 300 :=
  addressing_bijection.2.2.1 300 (by norm_num)

/-- **C2.** With shuffle factor `s` and nominal interval `i`, the scheduler
assigns every even-indexed step the interval `i*(1+s)` and every odd-indexed
step the interval `i*(1-s)`; the intervals of any two consecutive steps sum
to `2i`. -/
theorem swing_alternation :
    (∀ (n : Nat) (s i : ℚ), n % 2 = 0 → shuffledInterval n s i = i * (1 + s)) ∧
    (∀ (n : Nat) (s i : ℚ), n % 2 = 1 → shuffledInterval n s i = i * (1 - s)) ∧
    (∀ (n : Nat) (s i : ℚ),
      shuffledInterval n s i + shuffledInterval (n + 1) s i = 2 * i) := by
  refine ⟨?_, ?_, ?_⟩
  · intro n s i h
    unfold shuffledInterval
    rw [if_pos h]
    ring
  · intro n s i h
    unfold shuffledInterval
    rw [if_neg (by omega)]
    ring
  · intro n s i
    unfold shuffledInterval
    rcases Nat.mod_two_eq_zero_or_one n with h | h
    · rw [if_pos h, if_neg (by omega)]
      ring
    · rw [if_neg (by omega), if_pos (by omega)]
      ring

/-- Witness for C2 at the concrete even/odd steps 2 and 3 with `s = 1/4`,
`i = 1/8`. -/
theorem swing_alternation_witness :
    shuffledInterval 2 (1/4) (1/8) = (1/8) * (1 + 1/4) ∧
    shuffledInterval 3 (1/4) (1/8) = (1/8) * (1 - 1/4) :=
  ⟨swing_alternation.1 2 (1/4) (1/8) rfl,
   swing_alternation.2.1 3 (1/4) (1/8) rfl⟩

/-- **C4.** The flam pre-onset `T - (f + 0.21)*i` fires strictly before `T`
for any flam factor `f > -0.21` (with interval `i > 0`); and for every flam
factor the engine can actually store (written by `consumeMk` as `(e-8)/20`
for a MainKey `e ∈ [8, 15]`, hence `f ∈ [0, 0.35]`), it also fires strictly
after the previous step's onset `T - i`. -/
theorem flam_ordering :
    (∀ T i f : ℚ, 0 < i → -(21/100) < f → flammedTime T i f < T) ∧
    (∀ (T i : ℚ) (e : Nat), 0 < i → 8 ≤ e → e ≤ 15 →
      T - i < flammedTime T i (flamFactorOfKey e) ∧
      flammedTime T i (flamFactorOfKey e) < T) := by
  constructor
  · intro T i f hi hf
    have h : 0 < (f + 21/100) * i := by
      apply mul_pos _ hi
      linarith
    simp only [flammedTime]
    linarith
  · intro T i e hi he8 he15
    have hc8 : (8 : ℚ) ≤ (e : ℚ) := by exact_mod_cast he8
    have hc15 : (e : ℚ) ≤ 15 := by exact_mod_cast he15
    have hf0 : 0 ≤ flamFactorOfKey e := by
      simp only [flamFactorOfKey]
      linarith
    have hf35 : flamFactorOfKey e ≤ 35/100 := by
      simp only [flamFactorOfKey]
      linarith
    constructor
    · simp only [flammedTime]
      nlinarith
    · simp only [flammedTime]
      nlinarith

/-- Witness for C4 at `T = 10`, `i = 1`, `f = 0` and MainKey `e = 12`. -/
theorem flam_ordering_witness :
    flammedTime 10 1 0 < 10 ∧
    (10 - 1 < flammedTime 10 1 (flamFactorOfKey 12) ∧
      flammedTime 10 1 (flamFactorOfKey 12) < 10) :=
  ⟨flam_ordering.1 10 1 0 (by norm_num) (by norm_num),
   flam_ordering.2 10 1 12 (by norm_num) (by norm_num) (by norm_num)⟩

/-- **C5.** On the shared hi-hat step sequence, a closed-hat write advances
the slot to `(v+1) mod 3` (always a closed-hat-or-silent value `0/1/2`), an
open-hat write cycles `0→3→6→0` (sending any closed value to `3`, so the
result is always an open-hat-or-silent value `0/3/6`), and playback decodes
`1/2` as closed hat with accent weight `0.6/0.8` and `3/6` as open hat with
accent weight `0.6/0.8` (`0` selects no sound). -/
theorem hihat_shared_channel :
    (∀ v ∈ ([0, 1, 2, 3, 6] : List Nat),
      getUpdatedMemorySlot false v = (v + 1) % 3 ∧
      getUpdatedMemorySlot false v ∈ ([0, 1, 2] : List Nat) ∧
      getUpdatedMemorySlot true v ∈ ([0, 3, 6] : List Nat)) ∧
    getUpdatedMemorySlot true 0 = 3 ∧
    getUpdatedMemorySlot true 3 = 6 ∧
    getUpdatedMemorySlot true 6 = 0 ∧
    (∀ v ∈ ([1, 2] : List Nat), getUpdatedMemorySlot true v = 3) ∧
    decodeHat 0 = none ∧
    decodeHat 1 = some (false, 6/10) ∧
    decodeHat 2 = some (false, 8/10) ∧
    decodeHat 3 = some (true, 6/10) ∧
    decodeHat 6 = some (true, 8/10) := by
  refine ⟨by decide, rfl, rfl, rfl, by decide, rfl, rfl, rfl, rfl, rfl⟩

/-- Witness for C5: the quantified parts applied at the concrete slot
values 3 and 2. -/
theorem hihat_shared_channel_witness :
    (getUpdatedMemorySlot false 3 = (3 + 1) % 3 ∧
      getUpdatedMemorySlot false 3 ∈ ([0, 1, 2] : List Nat) ∧
      getUpdatedMemorySlot true 3 ∈ ([0, 3, 6] : List Nat)) ∧
    getUpdatedMemorySlot true 2 = 3 :=
  ⟨hihat_shared_channel.1 3 (by decide),
   hihat_shared_channel.2.2.2.2.1 2 (by decide)⟩

/-- **C6.** After any edit operation the pattern window satisfies
`0 ≤ firstStep < BASE ≤ 16`: the two LAST STEP writes preserve the
invariant (the branch runs only with `TRACK_WRITE` on, see
`consumeMkLastStep`), a first-step write with `step ≥ BASE` is refused as
a no-op, a last-step write with `step < firstStep` is refused as a no-op,
and both the empty pattern and a freshly cleared pattern have
`firstStep = 0 < BASE = 16`. -/
theorem pattern_window_invariant :
    (∀ (s : EditState) (e : Nat), e < 16 → s.trackWrite = true → windowInv s →
      windowInv (consumeMkFirstBeat s e) ∧ windowInv (consumeMkLastStep s e)) ∧
    (∀ (s : EditState) (e : Nat), s.BASE ≤ e → consumeMkFirstBeat s e = s) ∧
    (∀ (s : EditState) (e : Nat), e < s.firstBeat → consumeMkLastStep s e = s) ∧
    (generateEmptyPattern.firstStep = 0 ∧ generateEmptyPattern.base = 16) ∧
    (∀ (s : EngineState) (idx : Nat),
      ((clearPattern s idx).mem idx).firstStep = 0 ∧
        ((clearPattern s idx).mem idx).base = 16) := by
  refine ⟨?_, ?_, ?_, ⟨rfl, rfl⟩, ?_⟩
  · intro s e he htw hinv
    obtain ⟨h1, h2, h3, h4⟩ := hinv
    constructor
    · dsimp only [consumeMkFirstBeat, windowInv]
      split
      · exact ⟨h1, h2, h3, h4⟩
      · dsimp only
        omega
    · dsimp only [consumeMkLastStep, windowInv]
      split
      · exact ⟨h1, h2, h3, h4⟩
      · rw [htw]
        dsimp only [if_true]
        refine ⟨by omega, by omega, h3, rfl⟩
  · intro s e h
    dsimp only [consumeMkFirstBeat]
    rw [if_pos h]
  · intro s e h
    dsimp only [consumeMkLastStep]
    rw [if_pos h]
  · intro s idx
    constructor
    · dsimp only [clearPattern, resetBaseScaleOthers]
      rw [Function.update_same]
    · dsimp only [clearPattern, resetBaseScaleOthers]
      rw [Function.update_same]

/-- Witness for C6: the LAST STEP writes at MainKey 9 on a concrete
in-sync window state. -/
theorem pattern_window_invariant_witness :
    windowInv (consumeMkFirstBeat ⟨0, 16, true, 0, 16⟩ 9) ∧
    windowInv (consumeMkLastStep ⟨0, 16, true, 0, 16⟩ 9) :=
  pattern_window_invariant.1 ⟨0, 16, true, 0, 16⟩ 9 (by norm_num) rfl
    ⟨by norm_num, by norm_num, rfl, rfl⟩

/-- **C7.** The playback queue always holds between 1 and 120 entries:
append keeps the invariant and is a rejected no-op at length 120, a bulk
paste into the queue is truncated at capacity 120 and keeps the invariant,
and delete keeps the invariant and is a rejected no-op on the single
remaining entry. -/
theorem queue_capacity :
    (∀ (q : List SelectorCode) (code : SelectorCode) (e : Fin 16),
      queueInv q → queueInv (appendQueue q code e)) ∧
    (∀ (q : List SelectorCode), q.length = 120 →
      ∀ (code : SelectorCode) (e : Fin 16), appendQueue q code e = q) ∧
    (∀ (tw : Bool) (q : List SelectorCode) (cursor : Nat)
        (buf : List SelectorCode), queueInv q → cursor < q.length →
      queueInv (pastePatterns tw q cursor buf)) ∧
    (∀ (q : List SelectorCode) (cursor : Nat), queueInv q →
      queueInv (deletePattern q cursor).1) ∧
    (∀ (q : List SelectorCode) (cursor : Nat), q.length = 1 →
      deletePattern q cursor = (q, cursor)) := by
  refine ⟨?_, ?_, ?_, ?_, ?_⟩
  · intro q code e hq
    obtain ⟨h1, h2⟩ := hq
    dsimp only [appendQueue, queueInv]
    split
    · simp only [List.length_append, List.length_singleton]
      omega
    · exact ⟨h1, h2⟩
  · intro q hq code e
    dsimp only [appendQueue]
    rw [if_neg (by omega)]
  · intro tw q cursor buf hq hc
    obtain ⟨h1, h2⟩ := hq
    dsimp only [pastePatterns, queueInv]
    split
    · exact ⟨h1, h2⟩
    · split
      · exact ⟨h1, h2⟩
      · simp only [List.length_append, List.length_take, List.length_drop]
        omega
  · intro q cursor hq
    obtain ⟨h1, h2⟩ := hq
    dsimp only [deletePattern, queueInv]
    split
    · exact ⟨h1, h2⟩
    · rename_i hcond
      push_neg at hcond
      have hlen : (q.eraseIdx cursor).length = q.length - 1 :=
        List.length_eraseIdx_of_lt hcond.2
      dsimp only
      rw [hlen]
      omega
  · intro q cursor hq
    dsimp only [deletePattern]
    rw [if_pos (Or.inl (by omega))]

/-- Witness for C7: append on a concrete one-entry queue, paste of a
two-entry buffer, and rejected delete of the single remaining entry. -/
theorem queue_capacity_witness :
    queueInv (appendQueue [⟨.B1, .T1, .PG1, 0⟩] ⟨.B1, .T1, .PG1, 0⟩ 3) ∧
    queueInv (pastePatterns false [⟨.B1, .T1, .PG1, 0⟩] 0
      [⟨.B2, .T2, .PG2, 1⟩, ⟨.B2, .T3, .PG3, 2⟩]) ∧
    deletePattern [⟨.B1, .T1, .PG1, 0⟩] 0 = ([⟨.B1, .T1, .PG1, 0⟩], 0) :=
  ⟨queue_capacity.1 [⟨.B1, .T1, .PG1, 0⟩] ⟨.B1, .T1, .PG1, 0⟩ 3
      ⟨by norm_num, by norm_num⟩,
   queue_capacity.2.2.1 false [⟨.B1, .T1, .PG1, 0⟩] 0
      [⟨.B2, .T2, .PG2, 1⟩, ⟨.B2, .T3, .PG3, 2⟩]
      ⟨by norm_num, by norm_num⟩ (by norm_num),
   queue_capacity.2.2.2.2 [⟨.B1, .T1, .PG1, 0⟩] 0 rfl⟩

/-- **C8, counterexample.** The claim says an out-of-window retained
position is clamped back to the window boundary.  The CONT handler clamps
only when `counter < firstBeat || counter > BASE`: with `firstStep = 0`,
`BASE = 16`, forward playback and retained position 16 — outside the
window `[0, 16)` — the position is kept at 16 instead of being clamped to
`firstBeat - 1 = -1`, and the first scheduled tick lands on step 1, not on
`firstStep = 0`. -/
theorem continue_clamp_counterexample :
    contBeatRunner 16 0 16 false false = 16 ∧
    ¬ (0 ≤ (16:Int) ∧ (16:Int) < 16) ∧
    contBeatRunner 16 0 16 false false ≠ 0 - 1 ∧
    moveBeatRunnerCounter (contBeatRunner 16 0 16 false false) 16 = 1 := by
  refine ⟨rfl, by omega, by decide, by decide⟩

/-- **C8, amended.** Continue resumes from the retained position whenever
`firstStep ≤ position ≤ BASE` (so also at the out-of-window position
`BASE` itself); it clamps exactly when the position is `< firstStep` or
`> BASE`, to `firstStep - 1` forward and `BASE` in reverse, after which the
first scheduled tick lands on `firstStep` going forward and `BASE - 1` in
reverse. -/
theorem continue_clamp :
    (∀ (pos fb base : Int) (inv : Bool),
      fb ≤ pos → pos ≤ base → contBeatRunner pos fb base inv false = pos) ∧
    (∀ (pos fb base : Int) (inv : Bool), pos < fb ∨ base < pos →
      contBeatRunner pos fb base inv false = (if inv then base else fb - 1)) ∧
    (∀ fb base : Int, 0 ≤ fb → fb < base →
      moveBeatRunnerCounter (fb - 1) base = fb) ∧
    (∀ base : Int, 0 < base →
      moveBeatRunnerBackwardCounter base base = base - 1) := by
  refine ⟨?_, ?_, ?_, ?_⟩
  · intro pos fb base inv hlo hhi
    simp only [contBeatRunner]
    rw [if_neg (show ¬((false : Bool) = true) by decide)]
    rw [if_neg (show ¬(pos < fb ∨ base < pos) by omega)]
  · intro pos fb base inv h
    simp only [contBeatRunner]
    rw [if_neg (show ¬((false : Bool) = true) by decide)]
    rw [if_pos h]
  · intro fb base hlo hhi
    dsimp only [moveBeatRunnerCounter]
    have he : fb - 1 + 1 = fb := by ring
    rw [he]
    exact Int.emod_eq_of_lt hlo hhi
  · intro base hpos
    dsimp only [moveBeatRunnerBackwardCounter]
    have he : base + base - 1 = (base - 1) + base * 1 := by ring
    rw [he, Int.add_mul_emod_self_left]
    exact Int.emod_eq_of_lt (by omega) (by omega)

/-- Witness for C8 (amended): in-window resume at position 5, clamp of
position 20, and the post-clamp first ticks, in the window `[0, 16)`. -/
theorem continue_clamp_witness :
    contBeatRunner 5 0 16 false false = 5 ∧
    contBeatRunner 20 0 16 false false = -1 ∧
    moveBeatRunnerCounter (0 - 1) 16 = 0 ∧
    moveBeatRunnerBackwardCounter 16 16 = 15 :=
  ⟨continue_clamp.1 5 0 16 false (by omega) (by omega),
   continue_clamp.2.1 20 0 16 false (Or.inr (by omega)),
   by
    have h := continue_clamp.2.2.1 0 16 (by omega) (by omega)
    simpa using h,
   by
    have h := continue_clamp.2.2.2 16 (by omega)
    simpa using h⟩

/-- **C10.** `clearPattern` for any pattern address resets the engine's
live scheduler state — global scale to 1, BASE to 16, first beat to 0,
shuffle and flam factors to 0, grid to 4, invert to 0 — then writes the
cleared record's scalar fields from these reset live values, and modifies
no field of any other pattern record. -/
theorem clearPattern_frame :
    ∀ (s : EngineState) (idx : Nat),
      (clearPattern s idx).GLOBAL_SCALE = 1 ∧
      (clearPattern s idx).BASE = 16 ∧
      (clearPattern s idx).firstBeat = 0 ∧
      (clearPattern s idx).shuffleFactor = 0 ∧
      (clearPattern s idx).flamFactor = 0 ∧
      (clearPattern s idx).grid = 4 ∧
      (clearPattern s idx).invert = 0 ∧
      (clearPattern s idx).mem idx =
        { insts := List.replicate 11 (List.replicate 16 0)
          scale := 1
          base := 16
          shuffle := 0
          flam := 0
          flammed := List.replicate 11 0
          firstStep := 0
          invert := 0 } ∧
      (∀ j, j ≠ idx → (clearPattern s idx).mem j = s.mem j) := by
  intro s idx
  refine ⟨rfl, rfl, rfl, rfl, rfl, rfl, rfl, ?_, ?_⟩
  · dsimp only [clearPattern, resetBaseScaleOthers]
    rw [Function.update_same]
  · intro j hj
    dsimp only [clearPattern, resetBaseScaleOthers]
    rw [Function.update_noteq hj]

/-- Witness for C10: clearing pattern 5 of an all-empty memory leaves
record 7 untouched. -/
theorem clearPattern_frame_witness :
    (clearPattern
        ⟨fun _ => generateEmptyPattern, 2, 1/10, 31, 1/20, 20, 0, 12, 3, 4, 1⟩
        5).mem 7 =
      generateEmptyPattern :=
  (clearPattern_frame
      ⟨fun _ => generateEmptyPattern, 2, 1/10, 31, 1/20, 20, 0, 12, 3, 4, 1⟩
      5).2.2.2.2.2.2.2.2 7 (by norm_num)

/-- **C3.** With Cycle off, when the queue cursor is at the last entry and
the beat position reaches the pattern's terminal edge (BASE−1 forward,
firstStep in reverse), the scheduler dispatches that final step and
transitions RUNNING→STOPPED; concretely, starting a 2-pattern queue each
of BASE 16 forward, 32 loop iterations dispatch exactly steps 0–15 of
entry 0 then 0–15 of entry 1 and stop precisely on the last of them, with
step 0 of the first pattern dispatched exactly once. -/
theorem terminal_stop :
    (∀ (s m : SchedState), s.running = true →
      m = (if s.invert then moveBeatRunnerBackward s else moveBeatRunner s) →
      m.patternNumber = m.queue.length - 1 → m.cycle = false →
      m.beat = terminalEdge m.invert m.base m.firstBeat →
      schedulerStep s =
        { m with events := m.events ++ [(m.patternNumber, m.beat)],
                 running := false }) ∧
    (runScheduler 32 (startScheduler twoPatternState)).events =
      twoPatternTrace ∧
    (runScheduler 32 (startScheduler twoPatternState)).running = false ∧
    (runScheduler 31 (startScheduler twoPatternState)).running = true ∧
    (runScheduler 32 (startScheduler twoPatternState)).events.count (0, 0) = 1 := by
  refine ⟨?_, by decide, by decide, by decide, by decide⟩
  intro s m hrun hm h1 h2 h3
  unfold schedulerStep
  rw [hrun, ← hm]
  dsimp only [if_true]
  have hcond : m.patternNumber = m.queue.length - 1 ∧ m.cycle = false ∧
      m.beat = terminalEdge m.invert m.base m.firstBeat := ⟨h1, h2, h3⟩
  rw [if_pos hcond, if_pos (show (true : Bool) = true from rfl)]

/-- Witness for C3: the general terminal-stop step applied to the concrete
state one dispatch before the stop. -/
theorem terminal_stop_witness :
    (schedulerStep nearStopState).running = false := by
  have h := terminal_stop.1 nearStopState (moveBeatRunner nearStopState) rfl
    rfl (by decide) rfl (by decide)
  rw [h]

/-- Helper for C9: folding snapshot entries over an initial memory leaves
any index absent from the snapshot's keys at its initial value. -/
theorem foldl_update_not_mem (l : List (Nat × PatternRec))
    (f0 : Nat → PatternRec) (i : Nat) (h : i ∉ l.map Prod.fst) :
    l.foldl (fun m kv => Function.update m kv.1 kv.2) f0 i = f0 i := by
  induction l generalizing f0 with
  | nil => rfl
  | cons kv t ih =>
    simp only [List.map_cons, List.mem_cons] at h
    push_neg at h
    rw [List.foldl_cons, ih _ h.2, Function.update_noteq h.1]

/-- Helper for C9: with pairwise-distinct keys, folding snapshot entries
over an initial memory recovers each stored record at its key. -/
theorem foldl_update_mem (l : List (Nat × PatternRec))
    (f0 : Nat → PatternRec) (i : Nat) (v : PatternRec)
    (hnd : (l.map Prod.fst).Nodup) (hmem : (i, v) ∈ l) :
    l.foldl (fun m kv => Function.update m kv.1 kv.2) f0 i = v := by
  induction l generalizing f0 with
  | nil => cases hmem
  | cons kv t ih =>
    simp only [List.map_cons, List.nodup_cons] at hnd
    rw [List.foldl_cons]
    rcases List.mem_cons.mp hmem with heq | htail
    · subst heq
      have hkey : i ∉ t.map Prod.fst := hnd.1
      rw [foldl_update_not_mem t _ i hkey]
      dsimp only
      rw [Function.update_same]
    · exact ih _ hnd.2 htail

/-- **C9.** Serialising the pattern memory to the sparse snapshot (a
pattern is included iff some instrument slot is non-zero, or BASE < 16, or
firstStep > 0) and restoring reproduces every included pattern's record —
step rows and scale/BASE/shuffle/flam/flam-enable/first-step/invert fields
— verbatim, and restores every absent pattern to the default empty
pattern. -/
theorem snapshot_roundtrip :
    ∀ (mem : Nat → PatternRec) (i : Nat), i < 384 →
      loadPatternData (collectPatternsForPreset mem) i =
        if patternIncluded (mem i) then mem i else generateEmptyPattern := by
  intro mem i hi
  unfold loadPatternData collectPatternsForPreset
  have hkeys : (((List.range 384).filter
      (fun j => patternIncluded (mem j))).map
        (fun j => (j, mem j))).map Prod.fst =
      (List.range 384).filter (fun j => patternIncluded (mem j)) := by
    rw [List.map_map]
    exact List.map_id _
  by_cases hinc : patternIncluded (mem i) = true
  · rw [if_pos hinc]
    apply foldl_update_mem
    · rw [hkeys]
      exact (List.nodup_range 384).filter _
    · rw [List.mem_map]
      exact ⟨i, List.mem_filter.mpr ⟨List.mem_range.mpr hi, hinc⟩, rfl⟩
  · rw [if_neg hinc]
    apply foldl_update_not_mem
    rw [hkeys]
    intro hcontra
    exact hinc (List.mem_filter.mp hcontra).2

/-- Witness for C9: the round-trip evaluated at index 5 of a memory whose
pattern 5 has a shortened window (hence is included in the snapshot). -/
theorem snapshot_roundtrip_witness :
    loadPatternData (collectPatternsForPreset
        (fun j => if j = 5 then
          { generateEmptyPattern with base := 12, firstStep := 2 }
          else generateEmptyPattern)) 5 =
      (if patternIncluded ((fun j : Nat => if j = 5 then
          { generateEmptyPattern with base := 12, firstStep := 2 }
          else generateEmptyPattern) 5)
        then (fun j : Nat => if j = 5 then
          { generateEmptyPattern with base := 12, firstStep := 2 }
          else generateEmptyPattern) 5
        else generateEmptyPattern) :=
  snapshot_roundtrip
    (fun j => if j = 5 then
      { generateEmptyPattern with base := 12, firstStep := 2 }
      else generateEmptyPattern) 5 (by norm_num)

end TR909
